import Mathlib

/-!
Shallow embedding of the med-image repository's batch pipeline and
supervisory components.

`DICOMPipelineManager` (src/dicom_pipeline_Manager.py) is embedded as pure
functions: the S3 listing, the per-file success/failure of the transformation
body, the SNS publish, the CloudWatch alarm listing, the Lambda invoke and
the Logs query are external collaborators, so they enter the model as
explicit parameters (`Except`-valued results, or an oracle
`fails : String → Option String` giving the error message when the
transformation body of a given file raises).  Log calls are recorded as a
`List LogEvent` so that per-asset outcomes, which the Python code only
exposes through logging, are observable in the model.
-/

/-- Severity-tagged log event, mirroring the `logging` calls in the source. -/
inductive LogEvent where
  | info (msg : String)
  | warning (msg : String)
  | error (msg : String)
  | debugMsg (msg : String)
  deriving DecidableEq, Repr

/-- Outcome status of one asset, as observable from the code's log calls:
`logging.info("Processing complete ...")` = succeeded,
`logging.warning("File already processed ...")` = skipped,
`logging.error("Failed to process ...")` = failed. -/
inductive Status where
  | succeeded
  | skipped
  | failed
  deriving DecidableEq, Repr

/-- `leadsWith s pat = true` iff the char list `pat` occurs at the head of `s`. -/
def leadsWith : List Char → List Char → Bool
  | _, [] => true
  | [], _ :: _ => false
  | a :: as, b :: bs => a == b && leadsWith as bs

/-- `containsSeq s pat = true` iff `pat` occurs contiguously somewhere in `s`. -/
def containsSeq : List Char → List Char → Bool
  | [], pat => leadsWith [] pat
  | a :: rest, pat => leadsWith (a :: rest) pat || containsSeq rest pat

/-- Python's `pat in s` substring test on strings. -/
def strContains (s pat : String) : Bool :=
  containsSeq s.data pat.data

/-- Python's `s.endswith(pat)`. -/
def strEndsWith (s pat : String) : Bool :=
  leadsWith s.data.reverse pat.data.reverse

/-- Python's `', '.join(items)`. -/
def joinComma : List String → String
  | [] => ""
  | [s] => s
  | s :: rest => s ++ ", " ++ joinComma rest

/-- The log events emitted by the nested transformation loops of
`process_images`: `for i in range(5)` stages, each with
`for j in range(3)` sub-operations and the `i * j % 2 == 0` parity branch. -/
def stageLogs (file : String) : List LogEvent :=
  (List.range 5).flatMap (fun i =>
    LogEvent.info ("Applying operation " ++ toString i ++ " on " ++ file) ::
    (List.range 3).map (fun j =>
      if i * j % 2 == 0 then
        LogEvent.debugMsg ("Condition met at " ++ toString i ++ ", " ++ toString j ++ " for " ++ file)
      else
        LogEvent.debugMsg ("Skipping " ++ toString i ++ ", " ++ toString j ++ " for " ++ file)))

/-- Per-file outcome of one iteration of the `process_images` loop. -/
structure FileOutcome where
  status : Status
  output : Option String
  logs : List LogEvent
  deriving DecidableEq, Repr

/-- One iteration of the `for file in dicom_files` loop body of
`DICOMPipelineManager.process_images`.  `fails file = some e` models the
transformation body raising an exception with message `e` for that file
(the `except Exception as e` arm); `fails file = none` models normal
completion of the nested loops and the append of `file + '_processed'`. -/
def processOne (fails : String → Option String) (file : String) : FileOutcome :=
  if strContains file "processed" = false then
    match fails file with
    | some e =>
        ⟨Status.failed, none,
          [LogEvent.error ("Failed to process " ++ file ++ ": " ++ e)]⟩
    | none =>
        ⟨Status.succeeded, some (file ++ "_processed"),
          stageLogs file ++ [LogEvent.info ("Processing complete for " ++ file)]⟩
  else
    ⟨Status.skipped, none,
      [LogEvent.warning ("File already processed: " ++ file)]⟩

/-- `DICOMPipelineManager.process_images`: returns the accumulated
`processed_files` list together with the emitted log events. -/
def process_images (fails : String → Option String) :
    List String → List String × List LogEvent
  | [] => ([], [])
  | file :: rest =>
    let o := processOne fails file
    let r := process_images fails rest
    (o.output.toList ++ r.1, o.logs ++ r.2)

/-- The per-asset statuses of a run of `process_images`, as observable from
its log events (one status per input file, in input order). -/
def resultStatuses (fails : String → Option String) (files : List String) :
    List Status :=
  files.map (fun f => (processOne fails f).status)

/-- The output entry that the `process_images` loop contributes to
`processed_files` for one input file (`none` when the file is skipped or
its transformation raises). -/
def succOutput (fails : String → Option String) (f : String) : Option String :=
  if strContains f "processed" = false then
    match fails f with
    | some _ => none
    | none => some (f ++ "_processed")
  else none

/-- `DICOMPipelineManager.fetch_dicom_files`: filters the S3 listing down to
keys ending in `.dcm`.  `listing` is the outcome of the
`s3.list_objects_v2` call; an exception there propagates (no handler). -/
def fetch_dicom_files (listing : Except String (List String)) :
    Except String (List String) :=
  match listing with
  | Except.error e => Except.error e
  | Except.ok keys => Except.ok (keys.filter (fun k => strEndsWith k ".dcm"))

/-- `DICOMPipelineManager.notify_completion`: the SNS message built from the
`processed_files` list. -/
def notify_completion (processed_files : List String) : String :=
  "Processing completed for files: " ++ joinComma processed_files

/-- Observable trace of one `run_pipeline` invocation: how many times
`process_images` and `notify_completion` were entered, and the published
message if any. -/
structure RunTrace where
  engineCalls : Nat
  notifyCalls : Nat
  message : Option String
  deriving DecidableEq, Repr

/-- `DICOMPipelineManager.run_pipeline`: fetch, then (if the fetched list is
truthy, i.e. non-empty) process and notify; an error from the fetch step
propagates to the caller (no handler in `run_pipeline`). -/
def run_pipeline (fails : String → Option String)
    (listing : Except String (List String)) : Except String RunTrace :=
  match fetch_dicom_files listing with
  | Except.error e => Except.error e
  | Except.ok dicom_files =>
    if dicom_files.isEmpty then
      Except.ok ⟨0, 0, none⟩
    else
      let processed := (process_images fails dicom_files).1
      Except.ok ⟨1, 1, some (notify_completion processed)⟩

/-- A CloudWatch alarm record as consumed by `monitor_system_health`:
`describe_alarms(StateValue='ALARM')` returns exactly the alarms currently
in ALARM state, each with its `AlarmName` and `AlarmActions` list. -/
structure Alarm where
  alarmName : String
  alarmActions : List String
  deriving DecidableEq, Repr

/-- `MedicalDeviceSupportSystem.monitor_system_health`: for each alarm in
ALARM state, sends a notification `("Alarm <name> triggered", actions[0])`.
The `alarm['AlarmActions'][0]` subscript on an empty action list raises an
IndexError which nothing in `monitor_system_health` catches, so the sweep
stops there: the first component collects the (message, target) pairs of
the notifications actually sent, the second is `true` iff the sweep raised. -/
def monitor_system_health : List Alarm → List (String × String) × Bool
  | [] => ([], false)
  | a :: rest =>
    match a.alarmActions with
    | [] => ([], true)
    | tgt :: _ =>
      let r := monitor_system_health rest
      (("Alarm " ++ a.alarmName ++ " triggered", tgt) :: r.1, r.2)

/-- `MedicalDeviceSupportSystem.audit_system_access`: `queryResults` is the
combined outcome of `start_query` + `get_query_results` (an exception in
either is caught by the single `except` arm).  Returns the findings that the
loop logs at warning severity, paired with the emitted log events; on any
failure the handler logs at error severity and the findings are empty. -/
def audit_system_access (queryResults : Except String (List String)) :
    List String × List LogEvent :=
  match queryResults with
  | Except.error e =>
      ([], [LogEvent.error ("Error auditing system access: " ++ e)])
  | Except.ok results =>
      (results,
        results.map (fun r =>
          LogEvent.warning ("Unusual access pattern detected: " ++ r)))

/-- `MedicalDeviceSupportSystem.auto_resolve_issues`: invokes the named
Lambda function; `invoke fn payload` is the outcome of
`lambda_client.invoke`.  An exception is caught by the `except` arm and
logged at error severity; the function then returns `None` (here `none`). -/
def auto_resolve_issues (invoke : String → String → Except String String)
    (function_name payload : String) : Option String × List LogEvent :=
  match invoke function_name payload with
  | Except.ok h =>
      (some h,
        [LogEvent.info ("Invoked Lambda function " ++ function_name ++
          " for automatic issue resolution.")])
  | Except.error e =>
      (none, [LogEvent.error ("Error invoking Lambda function: " ++ e)])

/-! ## Helper lemmas -/

/-- The `processed_files` entry of one loop iteration is `succOutput`. -/
theorem processOne_output (fails : String → Option String) (f : String) :
    (processOne fails f).output = succOutput fails f := by
  unfold processOne succOutput
  split
  · cases fails f <;> rfl
  · rfl

/-- The per-file loop body depends only on the fail behaviour of that file. -/
theorem processOne_congr (fails fails2 : String → Option String) (f : String)
    (h : fails f = fails2 f) : processOne fails f = processOne fails2 f := by
  unfold processOne
  rw [h]

/-- `process_images` returns exactly the `succOutput` entries of its input,
in input order. -/
theorem process_images_fst (fails : String → Option String)
    (files : List String) :
    (process_images fails files).1 = files.filterMap (succOutput fails) := by
  induction files with
  | nil => rfl
  | cons f rest ih =>
    simp only [process_images, List.filterMap_cons, ← processOne_output]
    cases h : (processOne fails f).output <;>
      simp [h, ih]

/-- The log events of a run are the concatenation of the per-file logs. -/
theorem process_images_snd (fails : String → Option String)
    (files : List String) :
    (process_images fails files).2 =
      files.flatMap (fun f => (processOne fails f).logs) := by
  induction files with
  | nil => rfl
  | cons f rest ih =>
    simp [process_images, ih]

/-- Leading occurrence implies occurrence. -/
theorem containsSeq_of_leadsWith (s pat : List Char)
    (h : leadsWith s pat = true) : containsSeq s pat = true := by
  cases s with
  | nil => exact h
  | cons a rest => simp [containsSeq, h]

/-- If `s` contains `a :: pat` contiguously, it contains `pat` contiguously. -/
theorem containsSeq_of_cons (a : Char) (s pat : List Char)
    (h : containsSeq s (a :: pat) = true) : containsSeq s pat = true := by
  induction s with
  | nil => simp [containsSeq, leadsWith] at h
  | cons x rest ih =>
    simp only [containsSeq, Bool.or_eq_true] at h ⊢
    cases h with
    | inl h =>
      simp only [leadsWith, Bool.and_eq_true] at h
      exact Or.inr (containsSeq_of_leadsWith rest pat h.2)
    | inr h => exact Or.inr (ih h)

/-- A `filterMap` keeps as many elements as satisfy `(g a).isSome`. -/
theorem length_filterMap_eq {α β : Type} (g : α → Option β) (l : List α) :
    (l.filterMap g).length = (l.filter (fun a => (g a).isSome)).length := by
  induction l with
  | nil => rfl
  | cons a rest ih =>
    cases h : g a <;> simp [List.filterMap_cons, List.filter_cons, h, ih]

/-- A key containing the full marker `"_processed"` contains `"processed"`. -/
theorem strContains_processed_of_marker (f : String)
    (h : strContains f "_processed" = true) :
    strContains f "processed" = true := by
  unfold strContains at h ⊢
  have hd : ("_processed" : String).data = '_' :: ("processed" : String).data := rfl
  rw [hd] at h
  exact containsSeq_of_cons '_' f.data ("processed" : String).data h

/-! ## Claims -/

/-- C1 (counterexample): on the single input `["c.dcm_processed"]` the Engine
returns zero entries, not one per input asset — the skipped asset is dropped
from the returned sequence. -/
theorem results_per_asset_cex :
    (process_images (fun _ => none) ["c.dcm_processed"]).1.length ≠
      ["c.dcm_processed"].length := by decide

/-- C1 (amended): `process_images` returns one entry per input asset whose
transformation completes (neither skipped for carrying `"processed"` in its
key nor failed by a raised exception), in input order — namely that asset's
output key; skipped and failed assets contribute no entry to the returned
sequence, so its length is the number of succeeded assets, not `n`. -/
theorem results_per_succeeded_asset (fails : String → Option String)
    (files : List String) :
    (process_images fails files).1 = files.filterMap (succOutput fails) ∧
    (process_images fails files).1.length =
      (files.filter (fun f => (succOutput fails f).isSome)).length := by
  refine ⟨process_images_fst fails files, ?_⟩
  rw [process_images_fst fails files, length_filterMap_eq]

/-- C2: if the transformation of the head asset raises (`fails file = some e`
on a non-skipped file), the Engine records that asset as failed (error log),
continues with the remaining assets (their statuses are still produced, one
per asset), and the fault changes no other asset's outcome: the statuses of
the remaining assets are the same under any oracle agreeing with `fails` on
them. -/
theorem engine_fault_isolation (fails fails2 : String → Option String)
    (file e : String) (rest : List String)
    (hf : fails file = some e)
    (hns : strContains file "processed" = false)
    (hagree : ∀ g ∈ rest, fails g = fails2 g) :
    resultStatuses fails (file :: rest) =
      Status.failed :: resultStatuses fails rest ∧
    LogEvent.error ("Failed to process " ++ file ++ ": " ++ e) ∈
      (process_images fails (file :: rest)).2 ∧
    resultStatuses fails rest = resultStatuses fails2 rest ∧
    (resultStatuses fails (file :: rest)).length = rest.length + 1 := by
  have hone : processOne fails file =
      ⟨Status.failed, none,
        [LogEvent.error ("Failed to process " ++ file ++ ": " ++ e)]⟩ := by
    unfold processOne
    rw [hns, hf]
    rfl
  refine ⟨?_, ?_, ?_, ?_⟩
  · simp [resultStatuses, hone]
  · simp [process_images, hone]
  · unfold resultStatuses
    exact List.map_congr_left fun g hg => by rw [processOne_congr fails fails2 g (hagree g hg)]
  · simp [resultStatuses]

/-- C2 (witness): concrete instance with `b.dcm` failing and `a.dcm` the
remaining asset. -/
theorem engine_fault_isolation_witness :
    resultStatuses (fun f => if f == "b.dcm" then some "boom" else none)
        ["b.dcm", "a.dcm"] =
      Status.failed ::
        resultStatuses (fun f => if f == "b.dcm" then some "boom" else none)
          ["a.dcm"] ∧
    LogEvent.error ("Failed to process " ++ "b.dcm" ++ ": " ++ "boom") ∈
      (process_images (fun f => if f == "b.dcm" then some "boom" else none)
        ["b.dcm", "a.dcm"]).2 ∧
    resultStatuses (fun f => if f == "b.dcm" then some "boom" else none)
        ["a.dcm"] =
      resultStatuses (fun _ => none) ["a.dcm"] ∧
    (resultStatuses (fun f => if f == "b.dcm" then some "boom" else none)
        ["b.dcm", "a.dcm"]).length = ["a.dcm"].length + 1 :=
  engine_fault_isolation
    (fun f => if f == "b.dcm" then some "boom" else none) (fun _ => none)
    "b.dcm" "boom" ["a.dcm"] (by decide) (by decide) (by decide)

/-- C3 (counterexample): the key `"reprocessed.dcm"` does not carry the
processed marker `"_processed"` as a substring, yet the Engine skips it and
runs no transformation stage on it (it emits only the already-processed
warning and contributes no output), contradicting the claim that every
asset whose key lacks the marker is transformed. -/
theorem skip_marker_cex :
    strContains "reprocessed.dcm" "_processed" = false ∧
    (processOne (fun _ => none) "reprocessed.dcm").status = Status.skipped ∧
    (processOne (fun _ => none) "reprocessed.dcm").logs =
      [LogEvent.warning ("File already processed: " ++ "reprocessed.dcm")] ∧
    (process_images (fun _ => none) ["reprocessed.dcm"]).1 = [] := by
  refine ⟨by decide, by decide, ?_, by decide⟩
  decide

/-- C3 (amended): the Engine's skip test is the substring `"processed"`
(the marker minus its leading underscore), not the full marker: every asset
whose key contains `"processed"` is skipped with only the warning log and no
transformation stage executed — in particular every key carrying the full
marker `"_processed"` is skipped and never re-processed — while the
transformation stages are run exactly on assets whose key does not contain
`"processed"` (so some keys lacking the full marker, e.g.
`"reprocessed.dcm"`, are also skipped). -/
theorem skip_marker_substring (fails : String → Option String) (file : String) :
    (strContains file "processed" = true →
      (processOne fails file).status = Status.skipped ∧
      (processOne fails file).logs =
        [LogEvent.warning ("File already processed: " ++ file)]) ∧
    (strContains file "_processed" = true →
      (processOne fails file).status = Status.skipped) ∧
    (strContains file "processed" = false → fails file = none →
      (processOne fails file).status = Status.succeeded ∧
      (processOne fails file).logs =
        stageLogs file ++
          [LogEvent.info ("Processing complete for " ++ file)]) := by
  refine ⟨fun h => ?_, fun h => ?_, fun h hok => ?_⟩
  · unfold processOne
    rw [h]
    exact ⟨rfl, rfl⟩
  · have h' := strContains_processed_of_marker file h
    unfold processOne
    rw [h']
    rfl
  · unfold processOne
    rw [h, hok]
    exact ⟨rfl, rfl⟩

/-- C3 (witness): instantiates the amended theorem at the already-marked key
`"c.dcm_processed"` and at the fresh key `"a.dcm"`. -/
theorem skip_marker_substring_witness :
    ((processOne (fun _ => none) "c.dcm_processed").status = Status.skipped ∧
      (processOne (fun _ => none) "c.dcm_processed").logs =
        [LogEvent.warning ("File already processed: " ++ "c.dcm_processed")]) ∧
    (processOne (fun _ => none) "c.dcm_processed").status = Status.skipped ∧
    ((processOne (fun _ => none) "a.dcm").status = Status.succeeded ∧
      (processOne (fun _ => none) "a.dcm").logs =
        stageLogs "a.dcm" ++
          [LogEvent.info ("Processing complete for " ++ "a.dcm")]) :=
  ⟨(skip_marker_substring (fun _ => none) "c.dcm_processed").1 (by decide),
   (skip_marker_substring (fun _ => none) "c.dcm_processed").2.1 (by decide),
   (skip_marker_substring (fun _ => none) "a.dcm").2.2 (by decide) rfl⟩

/-- C4 (counterexample): an alarm in ALARM state whose `AlarmActions` list is
empty is not a no-op: the `alarm['AlarmActions'][0]` subscript raises an
IndexError that nothing in `monitor_system_health` catches, so the sweep
errors out (second component `true`), and an alarm listed after it is never
notified. -/
theorem monitor_empty_actions_cex :
    monitor_system_health [⟨"NoActions", []⟩] = ([], true) ∧
    monitor_system_health [⟨"NoActions", []⟩, ⟨"Later", ["t"]⟩] =
      ([], true) := by
  exact ⟨rfl, rfl⟩

/-- C4 (amended): when every alarm in ALARM state has at least one configured
action, the sweep sends exactly one notification per alarm, addressed to the
first entry of that alarm's action list, and with no alarms in ALARM state
zero notifications are sent; but an alarm with zero configured actions
raises an IndexError that aborts the sweep (it is an error, not a no-op). -/
theorem monitor_notifies_first_actions (alarms : List Alarm)
    (h : ∀ a ∈ alarms, a.alarmActions ≠ []) :
    monitor_system_health alarms =
      (alarms.map (fun a =>
        ("Alarm " ++ a.alarmName ++ " triggered", a.alarmActions.headD "")),
       false) := by
  induction alarms with
  | nil => rfl
  | cons a rest ih =>
    have ha := h a (List.mem_cons_self a rest)
    cases hact : a.alarmActions with
    | nil => exact absurd hact ha
    | cons t ts =>
      have hrest := ih (fun b hb => h b (List.mem_cons_of_mem a hb))
      simp [monitor_system_health, hact, hrest]

/-- C4 (witness): one alarm with a single action target. -/
theorem monitor_notifies_first_actions_witness :
    monitor_system_health [⟨"HighCPUUtilization", ["arn:alert-topic"]⟩] =
      ([("Alarm " ++ "HighCPUUtilization" ++ " triggered", "arn:alert-topic")],
       false) := by
  have := monitor_notifies_first_actions
    [⟨"HighCPUUtilization", ["arn:alert-topic"]⟩] (by decide)
  simpa using this

/-- C5: on a successful listing, if the fetched (filtered) asset list is
empty the run short-circuits with zero Engine invocations and zero notifier
calls; if it is non-empty, the Engine and the notifier are each called
exactly once for that run. -/
theorem orchestrator_notify_once (fails : String → Option String)
    (keys : List String) :
    ((keys.filter (fun k => strEndsWith k ".dcm")).isEmpty = true →
      run_pipeline fails (Except.ok keys) = Except.ok ⟨0, 0, none⟩) ∧
    ((keys.filter (fun k => strEndsWith k ".dcm")).isEmpty = false →
      ∃ t, run_pipeline fails (Except.ok keys) = Except.ok t ∧
        t.engineCalls = 1 ∧ t.notifyCalls = 1) := by
  constructor
  · intro h
    simp [run_pipeline, fetch_dicom_files, h]
  · intro h
    refine ⟨⟨1, 1, some (notify_completion
      (process_images fails (keys.filter (fun k => strEndsWith k ".dcm"))).1)⟩,
      ?_, rfl, rfl⟩
    simp [run_pipeline, fetch_dicom_files, h]

/-- C5 (witness): the empty listing short-circuits; the one-file listing
notifies once. -/
theorem orchestrator_notify_once_witness :
    run_pipeline (fun _ => none) (Except.ok []) = Except.ok ⟨0, 0, none⟩ ∧
    (∃ t, run_pipeline (fun _ => none) (Except.ok ["a.dcm"]) = Except.ok t ∧
      t.engineCalls = 1 ∧ t.notifyCalls = 1) :=
  ⟨(orchestrator_notify_once (fun _ => none) []).1 (by decide),
   (orchestrator_notify_once (fun _ => none) ["a.dcm"]).2 (by decide)⟩

/-- C6: a transformation that completes emits output key = source key ++
`"_processed"`; the notifier message is the fixed header followed by the
comma-joined output keys of exactly the succeeded results; and on the spec's
example input `["a.dcm", "b.dcm", "c.dcm_processed"]` the statuses are
succeeded/succeeded/skipped and the published message lists
`a.dcm_processed, b.dcm_processed`. -/
theorem output_key_and_message (fails : String → Option String) (file : String)
    (hns : strContains file "processed" = false) (hok : fails file = none) :
    (processOne fails file).output = some (file ++ "_processed") ∧
    (∀ g fs, notify_completion (process_images g fs).1 =
      "Processing completed for files: " ++
        joinComma (fs.filterMap (succOutput g))) ∧
    resultStatuses (fun _ => none) ["a.dcm", "b.dcm", "c.dcm_processed"] =
      [Status.succeeded, Status.succeeded, Status.skipped] ∧
    (process_images (fun _ => none) ["a.dcm", "b.dcm", "c.dcm_processed"]).1 =
      ["a.dcm_processed", "b.dcm_processed"] ∧
    notify_completion
        (process_images (fun _ => none)
          ["a.dcm", "b.dcm", "c.dcm_processed"]).1 =
      "Processing completed for files: a.dcm_processed, b.dcm_processed" := by
  refine ⟨?_, ?_, by decide, by decide, by decide⟩
  · rw [processOne_output]
    unfold succOutput
    rw [hns, hok]
    rfl
  · intro g fs
    rw [notify_completion, process_images_fst]

/-- C6 (witness): the fresh key `"x.dcm"` succeeds with output key
`"x.dcm_processed"`. -/
theorem output_key_and_message_witness :
    (processOne (fun _ => none) "x.dcm").output = some ("x.dcm" ++ "_processed") :=
  (output_key_and_message (fun _ => none) "x.dcm" (by decide) rfl).1

/-- C7: a failed listing propagates: `fetch_dicom_files` forwards the error
unchanged and `run_pipeline` returns that same error, so no (partial or
total) asset list is produced, no `RunTrace` exists for the run, and in
particular the Engine and the notifier are never invoked. -/
theorem listing_failure_aborts_run (fails : String → Option String)
    (e : String) :
    fetch_dicom_files (Except.error e) = Except.error e ∧
    run_pipeline fails (Except.error e) = Except.error e ∧
    ∀ t : RunTrace, run_pipeline fails (Except.error e) ≠ Except.ok t :=
  ⟨rfl, rfl, fun _ h => Except.noConfusion h⟩

/-- C8: any failure of the audit query is caught, logged at error severity,
and yields an empty findings sequence — identical, as a return value, to a
successful scan that found nothing, so the caller cannot distinguish the two
via the returned findings alone. -/
theorem audit_failure_empty_findings (e : String) :
    (audit_system_access (Except.error e)).1 = [] ∧
    (audit_system_access (Except.error e)).2 =
      [LogEvent.error ("Error auditing system access: " ++ e)] ∧
    (audit_system_access (Except.error e)).1 =
      (audit_system_access (Except.ok [])).1 :=
  ⟨rfl, rfl, rfl⟩

/-- C9: a failing Lambda invocation is caught inside `auto_resolve_issues`
and logged at error severity; the operation still returns normally (with
`none` and only the error log), so the failure never propagates past the
remediate operation to the caller. -/
theorem remediation_failure_swallowed
    (invoke : String → String → Except String String)
    (fn payload e : String) (h : invoke fn payload = Except.error e) :
    auto_resolve_issues invoke fn payload =
      (none, [LogEvent.error ("Error invoking Lambda function: " ++ e)]) := by
  unfold auto_resolve_issues
  rw [h]

/-- C9 (witness): an invocation collaborator that always fails. -/
theorem remediation_failure_swallowed_witness :
    auto_resolve_issues (fun _ _ => Except.error "denied")
        "auto-resolution-handler" "{}" =
      (none, [LogEvent.error ("Error invoking Lambda function: " ++ "denied")]) :=
  remediation_failure_swallowed (fun _ _ => Except.error "denied")
    "auto-resolution-handler" "{}" "denied" rfl

/-- C10: when the fetched asset list is non-empty but no asset succeeds
(every fetched key carries `"processed"` or its transformation raises),
`run_pipeline` still performs exactly one notifier call, and the published
message's list of succeeded output keys is empty (only the fixed header is
sent). -/
theorem notify_on_all_unsucceeded (fails : String → Option String)
    (keys : List String)
    (hne : (keys.filter (fun k => strEndsWith k ".dcm")).isEmpty = false)
    (hall : ∀ f ∈ keys.filter (fun k => strEndsWith k ".dcm"),
      strContains f "processed" = true ∨ (fails f).isSome = true) :
    run_pipeline fails (Except.ok keys) =
      Except.ok ⟨1, 1, some (notify_completion [])⟩ ∧
    notify_completion [] = "Processing completed for files: " := by
  have hnone : ∀ f ∈ keys.filter (fun k => strEndsWith k ".dcm"),
      succOutput fails f = none := by
    intro f hf
    rcases hall f hf with h | h
    · unfold succOutput
      rw [h]
      rfl
    · unfold succOutput
      rcases Option.isSome_iff_exists.mp h with ⟨e, he⟩
      rw [he]
      split <;> rfl
  have hproc : (process_images fails
      (keys.filter (fun k => strEndsWith k ".dcm"))).1 = [] := by
    rw [process_images_fst]
    exact List.filterMap_eq_nil_iff.mpr hnone
  constructor
  · simp [run_pipeline, fetch_dicom_files, hne, hproc]
  · rfl

/-- C10 (witness): a single already-marked `.dcm` key still triggers the
notifier with the empty-success message. -/
theorem notify_on_all_unsucceeded_witness :
    run_pipeline (fun _ => none) (Except.ok ["a_processed.dcm"]) =
      Except.ok ⟨1, 1, some (notify_completion [])⟩ ∧
    notify_completion [] = "Processing completed for files: " :=
  notify_on_all_unsucceeded (fun _ => none) ["a_processed.dcm"]
    (by decide) (by decide)
